import Mathlib

/-!
Verification of the dental-kids-app core (src/js/app.js).

The file embeds, as Lean definitions, the state and operations of the
`DentalKidsApp` controller: navigation (`navigateToSection`), the procedure
modal (`showProcedureModal`, `nextProcedureStep`, `closeModal`,
`getProcedureData`), progress persistence (`loadProgress`, `saveProgress`),
badge awarding (`awardBadge`), the sound toggle, and the completion-rate
computation.  Browser platform services are modelled as follows:

* `localStorage` is a single optional slot (`Option StoredValue`).
* A stored string is represented by its JSON parse: `StoredValue.jsonDoc v`
  stands for any string whose `JSON.parse` result is the JSON value `v`, and
  `StoredValue.garbage s` for a string `s` on which `JSON.parse` throws.
  `JSON.stringify x` is modelled as producing a `jsonDoc` holding the JSON
  value of `x` (the JSON platform contract: stringify emits a string that
  parses back to the stringified value).
* DOM effects are reduced to the fields of `AppState` that the claims are
  about: the current section, which section element is shown, whether the
  procedure modal is shown and with which title/content, and the list of
  badge notifications that have been displayed.
* `new Date().toISOString()` is an explicit `now : String` argument.
-/

/-- A badge as stored in `userProgress.badges` (app.js lines 638-643). -/
structure Badge where
  id : String
  name : String
  icon : String
  earnedAt : String
deriving DecidableEq, Repr

/-- The persisted progress record (app.js lines 619-624 give the default). -/
structure ProgressRecord where
  completedProcedures : List String
  badges : List Badge
  soundEnabled : Bool
  visitCount : Nat
deriving DecidableEq, Repr

/-- JSON values, the domain of `JSON.parse` / `JSON.stringify`. -/
inductive Json where
  | null : Json
  | bool : Bool → Json
  | num : ℚ → Json
  | str : String → Json
  | arr : List Json → Json
  | obj : List (String × Json) → Json
deriving Repr

/-- A string held in the `localStorage` slot, represented by its JSON parse
    result: `jsonDoc v` is a string parsing to `v`; `garbage s` is a string
    `s` on which `JSON.parse` throws. -/
inductive StoredValue where
  | jsonDoc : Json → StoredValue
  | garbage : String → StoredValue
deriving Repr

/-- Model of the platform `JSON.parse`: succeeds exactly on parsable strings. -/
def jsonParse : StoredValue → Except String Json
  | .jsonDoc v => .ok v
  | .garbage s => .error ("SyntaxError: unexpected token in JSON: " ++ s)

/-- JSON encoding of a badge, with fields in the insertion order of
    app.js lines 638-643 (the order `JSON.stringify` preserves). -/
def encodeBadge (b : Badge) : Json :=
  .obj [("id", .str b.id), ("name", .str b.name), ("icon", .str b.icon),
        ("earnedAt", .str b.earnedAt)]

/-- JSON encoding of a progress record, with fields in the insertion order of
    app.js lines 619-624. -/
def encodeRecord (r : ProgressRecord) : Json :=
  .obj [("completedProcedures", .arr (r.completedProcedures.map Json.str)),
        ("badges", .arr (r.badges.map encodeBadge)),
        ("soundEnabled", .bool r.soundEnabled),
        ("visitCount", .num r.visitCount)]

/-- Reads a JSON string back into a `String`. -/
def decodeStr : Json → Option String
  | .str s => some s
  | _ => none

/-- Reads a JSON number back into a `Nat` (the shape `visitCount` has). -/
def decodeNat : Json → Option Nat
  | .num q => if q.den = 1 ∧ 0 ≤ q.num then some q.num.toNat else none
  | _ => none

/-- Reads a JSON object back into a `Badge`. -/
def decodeBadge : Json → Option Badge
  | .obj [("id", .str i), ("name", .str n), ("icon", .str c),
          ("earnedAt", .str e)] => some ⟨i, n, c, e⟩
  | _ => none

/-- Decodes each element of a JSON array, failing if any element fails. -/
def decodeEach {α : Type} (f : Json → Option α) : List Json → Option (List α)
  | [] => some []
  | j :: t => do
      let a ← f j
      let r ← decodeEach f t
      pure (a :: r)

/-- Reads a JSON value back into a `ProgressRecord`; inverse of
    `encodeRecord`, used to state deep-equality of persisted records. -/
def decodeRecord : Json → Option ProgressRecord
  | .obj [("completedProcedures", .arr cs), ("badges", .arr bs),
          ("soundEnabled", .bool se), ("visitCount", vc)] => do
      let cps ← decodeEach decodeStr cs
      let bdgs ← decodeEach decodeBadge bs
      let n ← decodeNat vc
      pure ⟨cps, bdgs, se, n⟩
  | _ => none

/-- JS truthiness of a stored string, as tested by `if (savedProgress)`:
    only the empty string is falsy. A parsable JSON document is never the
    empty string, since `JSON.parse("")` throws. -/
def StoredValue.truthy : StoredValue → Bool
  | .jsonDoc _ => true
  | .garbage s => !s.isEmpty

/-- The default-record object literal of app.js lines 619-624. -/
def defaultRecordJson : Json :=
  Json.obj
    [("completedProcedures", Json.arr []),
     ("badges", Json.arr []),
     ("soundEnabled", Json.bool true),
     ("visitCount", Json.num 0)]

/-- `loadProgress` (app.js lines 613-625): `if (savedProgress)` is a JS
    truthiness test, false both for a missing slot (`getItem` returns null)
    and for a stored empty string; only a truthy stored string reaches
    `JSON.parse`, whose error then propagates unguarded. -/
def loadProgress : Option StoredValue → Except String Json
  | some savedProgress =>
      if savedProgress.truthy then jsonParse savedProgress
      else .ok defaultRecordJson
  | none => .ok defaultRecordJson

/-- The default progress record (app.js lines 619-624), as a typed record. -/
def defaultProgress : ProgressRecord :=
  { completedProcedures := [], badges := [], soundEnabled := true,
    visitCount := 0 }

/-- The mutable state of the `DentalKidsApp` controller, together with the
    modelled browser state (storage slot, shown section, modal, displayed
    badge notifications). -/
structure AppState where
  currentSection : String
  soundEnabled : Bool
  userProgress : ProgressRecord
  storage : Option StoredValue
  activeView : Option String
  modalShown : Bool
  modalTitle : String
  modalContent : String
  notifications : List (String × String)

/-- The four content sections of the page. Modelled from the spec: the
    section elements live in index.html, which is not among the sources;
    the spec's glossary lists the four top-level views. -/
def knownSections : List String := ["home", "procedures", "progress", "tips"]

/-- `navigateToSection` (app.js lines 87-126): unconditionally overwrites
    `currentSection` with the given name; the delayed view switch activates
    the element `<name>-section` only when it exists, so an unknown name
    leaves no section active (every section had `active` removed first). -/
def navigateToSection (sectionName : String) (s : AppState) : AppState :=
  { s with currentSection := sectionName,
           activeView := if knownSections.contains sectionName
                         then some sectionName else none }

def cleaningTitle : String :=
  "🪥 Tooth Cleaning Adventure"

def cleaningContent : String :=
  "\n                    <div class=\"procedure-steps\">\n                        <div class=\"step-indicator\">Step 1 of 3: SHOW</div>\n                        <div class=\"procedure-animation\">\n                            <div class=\"tooth-demo\">🦷</div>\n                            <div class=\"brush-demo\">🪥</div>\n                        </div>\n                        <h3>Let me show you how we clean teeth!</h3>\n                        <p>Watch as the special dental brush gently cleans around your tooth. It might tickle a little, but it doesn\x27t hurt!</p>\n                        <button class=\"next-step-btn\" onclick=\"app.nextProcedureStep(\x27cleaning\x27, \x27tell\x27)\">\n                            Tell Me More! 📚\n                        </button>\n                    </div>\n                "

def xrayTitle : String :=
  "📸 X-Ray Superhero Vision"

def xrayContent : String :=
  "\n                    <div class=\"procedure-steps\">\n                        <div class=\"step-indicator\">Step 1 of 3: SHOW</div>\n                        <div class=\"procedure-animation\">\n                            <div class=\"xray-demo\">📸✨</div>\n                        </div>\n                        <h3>X-rays give us superhero vision!</h3>\n                        <p>Just like Superman can see through walls, X-rays help us see inside your teeth to make sure they\x27re healthy!</p>\n                        <button class=\"next-step-btn\" onclick=\"app.nextProcedureStep(\x27xray\x27, \x27tell\x27)\">\n                            Tell Me More! 📚\n                        </button>\n                    </div>\n                "

def fillingTitle : String :=
  "🔧 Cavity Filling Hero Mission"

def fillingContent : String :=
  "\n                    <div class=\"procedure-steps\">\n                        <div class=\"step-indicator\">Step 1 of 3: SHOW</div>\n                        <div class=\"procedure-animation\">\n                            <div class=\"filling-demo\">🦷🔧</div>\n                        </div>\n                        <h3>We\x27re tooth repair heroes!</h3>\n                        <p>Sometimes teeth get tiny holes called cavities. We fix them with special tooth-colored material, just like fixing a wall!</p>\n                        <button class=\"next-step-btn\" onclick=\"app.nextProcedureStep(\x27filling\x27, \x27tell\x27)\">\n                            Tell Me More! 📚\n                        </button>\n                    </div>\n                "

def checkupTitle : String :=
  "🔍 Dental Treasure Hunt"

def checkupContent : String :=
  "\n                    <div class=\"procedure-steps\">\n                        <div class=\"step-indicator\">Step 1 of 3: SHOW</div>\n                        <div class=\"procedure-animation\">\n                            <div class=\"checkup-demo\">🔍🦷</div>\n                        </div>\n                        <h3>Let\x27s go on a treasure hunt in your mouth!</h3>\n                        <p>We use a special mirror and light to explore every tooth, looking for hidden problems before they become big ones!</p>\n                        <button class=\"next-step-btn\" onclick=\"app.nextProcedureStep(\x27checkup\x27, \x27tell\x27)\">\n                            Tell Me More! 📚\n                        </button>\n                    </div>\n                "

/-- The title/content pair `getProcedureData` returns for one procedure. -/
structure ProcedureData where
  title : String
  content : String
deriving DecidableEq, Repr

/-- The `procedures` object literal of `getProcedureData` (app.js
    lines 362-428), keys in insertion order. -/
def proceduresTable : List (String × ProcedureData) :=
  [("cleaning", ⟨cleaningTitle, cleaningContent⟩),
   ("xray", ⟨xrayTitle, xrayContent⟩),
   ("filling", ⟨fillingTitle, fillingContent⟩),
   ("checkup", ⟨checkupTitle, checkupContent⟩)]

/-- The property names the `procedures` object literal inherits from
    `Object.prototype`: bracket access yields the inherited member — a
    function, or `Object.prototype` itself for `__proto__` — for these keys.
    Every inherited member is truthy, so the `||` fallback is skipped. -/
def objectPrototypeMembers : List String :=
  ["constructor", "hasOwnProperty", "isPrototypeOf", "propertyIsEnumerable",
   "toLocaleString", "toString", "valueOf", "__proto__", "__defineGetter__",
   "__defineSetter__", "__lookupGetter__", "__lookupSetter__"]

/-- The value `procedures[procedureType] || procedures.cleaning` evaluates
    to: a procedure-table entry (own key, or the cleaning fallback for an
    absent key), or a truthy member inherited from `Object.prototype`, which
    carries no `title`/`content` fields. -/
inductive ProcedureLookup where
  | entry : ProcedureData → ProcedureLookup
  | inheritedMember : String → ProcedureLookup
deriving DecidableEq, Repr

/-- Reading `.title` off the looked-up value: inherited members have no
    `title` field, so the read gives `undefined`, which the later
    `textContent` assignment stringifies to "undefined". -/
def ProcedureLookup.titleText : ProcedureLookup → String
  | .entry p => p.title
  | .inheritedMember _ => "undefined"

/-- Reading `.content` off the looked-up value: inherited members have no
    `content` field, so the read gives `undefined`, which the later
    `innerHTML` assignment stringifies to "undefined". -/
def ProcedureLookup.contentHtml : ProcedureLookup → String
  | .entry p => p.content
  | .inheritedMember _ => "undefined"

/-- `getProcedureData` (app.js lines 361-431):
    `return procedures[procedureType] || procedures.cleaning;` — bracket
    access walks the prototype chain, so an `Object.prototype` member name
    yields the truthy inherited member and the `||` never falls back; only a
    key absent from the whole chain gives `undefined` and falls back to the
    cleaning entry. -/
def getProcedureData (procedureType : String) : ProcedureLookup :=
  match proceduresTable.lookup procedureType with
  | some p => .entry p
  | none =>
      if objectPrototypeMembers.contains procedureType
      then .inheritedMember procedureType
      else .entry ⟨cleaningTitle, cleaningContent⟩

/-- `showProcedureModal` (app.js lines 324-341): fills the modal title and
    content from `getProcedureData` and shows the modal, for any argument. -/
def showProcedureModal (procedureType : String) (s : AppState) : AppState :=
  let procedureData := getProcedureData procedureType
  { s with modalTitle := procedureData.titleText,
           modalContent := procedureData.contentHtml,
           modalShown := true }

/-- `closeModal` (app.js lines 346-356): hides the modal. -/
def closeModal (s : AppState) : AppState :=
  { s with modalShown := false }

/-- `getProcedureStepContent` (app.js lines 450-453): placeholder step
    content. -/
def getProcedureStepContent (procedureType step : String) : String :=
  "<div class=\"step-content\">Step " ++ step ++ " content for "
    ++ procedureType ++ "</div>"

/-- `nextProcedureStep` (app.js lines 436-445): replaces the modal content
    with the step content. -/
def nextProcedureStep (procedureType step : String) (s : AppState) : AppState :=
  { s with modalContent := getProcedureStepContent procedureType step }

/-- `saveProgress` (app.js lines 627-630): copies `this.soundEnabled` into
    the record, then replaces the storage slot with the stringified record. -/
def saveProgress (s : AppState) : AppState :=
  let up := { s.userProgress with soundEnabled := s.soundEnabled }
  { s with userProgress := up,
           storage := some (.jsonDoc (encodeRecord up)) }

/-- `awardBadge` (app.js lines 635-649): appends a badge, saves and notifies
    unless a badge with the same id already exists, in which case nothing
    happens. -/
def awardBadge (badgeId badgeName badgeIcon now : String) (s : AppState) :
    AppState :=
  if (s.userProgress.badges.find? (fun b => b.id == badgeId)).isSome then s
  else
    let up := { s.userProgress with
                badges := s.userProgress.badges
                  ++ [⟨badgeId, badgeName, badgeIcon, now⟩] }
    let s1 := saveProgress { s with userProgress := up }
    { s1 with notifications := s1.notifications ++ [(badgeName, badgeIcon)] }

/-- The sound-toggle click handler (app.js lines 221-240): flips
    `soundEnabled` and persists. -/
def toggleSound (s : AppState) : AppState :=
  saveProgress { s with soundEnabled := !s.soundEnabled }

/-- JavaScript `Math.round`: round half up. -/
def jsRound (q : ℚ) : ℤ := ⌊q + 1 / 2⌋

/-- `calculateCompletionRate` (app.js lines 520-524), with the hard-coded
    total of 4 procedures. -/
def calculateCompletionRate (r : ProgressRecord) : ℤ :=
  let totalProcedures : ℚ := 4
  let completed : ℚ := r.completedProcedures.length
  jsRound (completed / totalProcedures * 100)

/-- The user-intent operations of the core, as embedded above. -/
inductive Op where
  | navigate (name : String) : Op
  | openModal (pid : String) : Op
  | stepRender (pid step : String) : Op
  | close : Op
  | award (id name icon now : String) : Op
  | toggle : Op
  | save : Op

/-- One operation applied to the app state. -/
def applyOp : Op → AppState → AppState
  | .navigate name => navigateToSection name
  | .openModal pid => showProcedureModal pid
  | .stepRender pid step => nextProcedureStep pid step
  | .close => closeModal
  | .award i n c t => awardBadge i n c t
  | .toggle => toggleSound
  | .save => saveProgress

/-- The modal-flow step, per the spec's Show-Tell-Do sequence. -/
inductive Step where
  | stepShow : Step
  | stepTell : Step
  | stepDo : Step
deriving DecidableEq, Repr

/-- Modal state: Closed, or Open(procedure, step). Modelled from the spec:
    app.js never tracks the current step (`getProcedureStepContent` says the
    flow "will be expanded in procedures.js", which is not among the
    sources), so the step register comes from the spec's ModalState. -/
inductive ModalFsm where
  | closed : ModalFsm
  | opened (pid : String) (step : Step) : ModalFsm
deriving DecidableEq, Repr

/-- The modal flow state: the spec's step register plus the app state. -/
structure FlowState where
  fsm : ModalFsm
  app : AppState

/-- Modelled from the spec: `openProcedure(procedureId)` of the Procedure
    Modal Flow (absent from app.js, which only renders via
    `showProcedureModal`) — opening yields Open(procedure, show). -/
def openProcedure (pid : String) (fs : FlowState) : FlowState :=
  { fsm := .opened pid .stepShow, app := showProcedureModal pid fs.app }

/-- Modelled from the spec: `advanceStep()` of the Procedure Modal Flow
    (absent from app.js — `nextProcedureStep` only renders a given step, and
    defers the progression to procedures.js, not among the sources).
    show → tell → do, and advancing past do closes the modal and is the
    single point where the Badge Engine is invoked, awarding the
    "completed <procedure>" badge idempotently via the app.js `awardBadge`. -/
def advanceStep (now : String) (fs : FlowState) : FlowState :=
  match fs.fsm with
  | .closed => fs
  | .opened pid .stepShow =>
      { fsm := .opened pid .stepTell, app := nextProcedureStep pid "tell" fs.app }
  | .opened pid .stepTell =>
      { fsm := .opened pid .stepDo, app := nextProcedureStep pid "do" fs.app }
  | .opened pid .stepDo =>
      { fsm := .closed,
        app := awardBadge ("completed " ++ pid) ("completed " ++ pid) "🏆" now
                 (closeModal fs.app) }

/-- Number of badges in a list carrying a given id. -/
def badgeCount (badgeId : String) (l : List Badge) : Nat :=
  (l.filter (fun b => b.id == badgeId)).length

/-- A concrete app state used by the witnesses: fresh install, as the
    constructor builds it (app.js lines 9-13) with an empty storage slot. -/
def demoState : AppState :=
  { currentSection := "home", soundEnabled := true,
    userProgress := defaultProgress, storage := none,
    activeView := some "home", modalShown := false,
    modalTitle := "", modalContent := "", notifications := [] }

/-- A concrete app state already holding one badge, used by witnesses that
    exercise the duplicate-award branch. -/
def demoBadgeState : AppState :=
  { demoState with userProgress :=
      { defaultProgress with
        badges := [⟨"brave", "Brave Kid", "🏆", "2024-01-01T00:00:00.000Z"⟩] } }

/-- Record update with the record's own field is the identity. -/
theorem progressRecord_update_self (r : ProgressRecord) :
    { r with soundEnabled := r.soundEnabled } = r := rfl

/-- `badgeCount` counts occurrences of the id among the badge ids. -/
theorem badgeCount_eq_count (badgeId : String) (l : List Badge) :
    badgeCount badgeId l = (l.map Badge.id).count badgeId := by
  simp [badgeCount, List.count, List.countP_map,
    ← List.countP_eq_length_filter]
  rfl

/-- The duplicate check of `awardBadge` succeeds exactly when the id is
    already present. -/
theorem find_badge_isSome_iff (badgeId : String) (l : List Badge) :
    (l.find? (fun b => b.id == badgeId)).isSome ↔ 0 < badgeCount badgeId l := by
  rw [List.find?_isSome]
  constructor
  · rintro ⟨b, hb, hid⟩
    have : b ∈ l.filter (fun b => b.id == badgeId) :=
      List.mem_filter.mpr ⟨hb, hid⟩
    simpa [badgeCount] using List.length_pos_of_mem this
  · intro h
    rcases List.exists_mem_of_length_pos h with ⟨b, hb⟩
    rcases List.mem_filter.mp hb with ⟨hbl, hbid⟩
    exact ⟨b, hbl, hbid⟩

/-- Appending a badge carrying the counted id increments the count. -/
theorem badgeCount_append_self (badgeId n i t : String) (l : List Badge) :
    badgeCount badgeId (l ++ [⟨badgeId, n, i, t⟩]) = badgeCount badgeId l + 1 := by
  simp [badgeCount, List.filter_append]

/-- The badges field after `awardBadge`: unchanged on a duplicate id,
    otherwise the new badge is appended. -/
theorem awardBadge_badges (badgeId n i t : String) (s : AppState) :
    (awardBadge badgeId n i t s).userProgress.badges =
      (if (s.userProgress.badges.find? (fun b => b.id == badgeId)).isSome
       then s.userProgress.badges
       else s.userProgress.badges ++ [⟨badgeId, n, i, t⟩]) := by
  unfold awardBadge saveProgress
  split <;> rfl

/-- After `awardBadge`, a starting count of at most one (in particular the
    no-duplicate invariant) forces a count of exactly one. -/
theorem badgeCount_awardBadge (badgeId n i t : String) (s : AppState)
    (h : badgeCount badgeId s.userProgress.badges ≤ 1) :
    badgeCount badgeId (awardBadge badgeId n i t s).userProgress.badges = 1 := by
  rw [awardBadge_badges]
  by_cases hf : (s.userProgress.badges.find? (fun b => b.id == badgeId)).isSome
  · rw [if_pos hf]
    have := (find_badge_isSome_iff badgeId s.userProgress.badges).mp hf
    omega
  · rw [if_neg hf]
    have h0 : badgeCount badgeId s.userProgress.badges = 0 := by
      by_contra hne
      exact hf ((find_badge_isSome_iff badgeId s.userProgress.badges).mpr
        (Nat.pos_of_ne_zero hne))
    rw [badgeCount_append_self, h0]

/-- Claim C7: for every ProgressRecord the completion rate computed by the
code equals round(100 × |completedProcedures| / 4) with the total fixed at 4,
i.e. 25 per completed procedure; in particular 0/4 gives 0, 2/4 gives 50 and
4/4 gives 100. -/
theorem completionRate_formula :
    (∀ r : ProgressRecord,
      calculateCompletionRate r
        = jsRound (100 * (r.completedProcedures.length : ℚ) / 4) ∧
      calculateCompletionRate r = 25 * (r.completedProcedures.length : ℤ)) ∧
    calculateCompletionRate ⟨[], [], true, 0⟩ = 0 ∧
    calculateCompletionRate ⟨["cleaning", "xray"], [], true, 0⟩ = 50 ∧
    calculateCompletionRate
      ⟨["cleaning", "xray", "filling", "checkup"], [], true, 0⟩ = 100 := by
  have key : ∀ r : ProgressRecord,
      calculateCompletionRate r = 25 * (r.completedProcedures.length : ℤ) := by
    intro r
    simp only [calculateCompletionRate, jsRound]
    have harg : (r.completedProcedures.length : ℚ) / 4 * 100
        = ((25 * (r.completedProcedures.length : ℤ)) : ℚ) := by
      push_cast
      ring
    rw [harg, Int.floor_eq_iff]
    constructor
    · push_cast
      linarith
    · push_cast
      linarith
  refine ⟨fun r => ⟨?_, key r⟩, ?_, ?_, ?_⟩
  · simp only [calculateCompletionRate]
    have harg : (r.completedProcedures.length : ℚ) / 4 * 100
        = 100 * (r.completedProcedures.length : ℚ) / 4 := by ring
    rw [harg]
  · simpa using key ⟨[], [], true, 0⟩
  · simpa using key ⟨["cleaning", "xray"], [], true, 0⟩
  · simpa using key ⟨["cleaning", "xray", "filling", "checkup"], [], true, 0⟩

/-- Claim C4 counterexample: on a persisted value that fails to parse,
`loadProgress` does not return the default record — the `JSON.parse` error
propagates, so the result carries no record at all. -/
theorem loadProgress_corrupt_throws :
    loadProgress (some (StoredValue.garbage "not json"))
      = Except.error ("SyntaxError: unexpected token in JSON: not json") ∧
    (loadProgress (some (StoredValue.garbage "not json"))).toOption = none := by
  exact ⟨rfl, rfl⟩

/-- Claim C4 (amended): `loadProgress` returns the persisted value when it
parses, and the default record {completedProcedures: [], badges: [],
soundEnabled: true, visitCount: 0} both when no persisted value exists and
when the persisted value is the empty string (the `if (savedProgress)`
truthiness guard fails, so `JSON.parse` is never reached); but when a
nonempty persisted value fails to parse, the parse error propagates (the
call throws) instead of the default being returned. -/
theorem loadProgress_default_or_parsed :
    loadProgress none = Except.ok (encodeRecord defaultProgress) ∧
    decodeRecord (encodeRecord defaultProgress) = some defaultProgress ∧
    (∀ v : Json,
      loadProgress (some (StoredValue.jsonDoc v)) = Except.ok v) ∧
    loadProgress (some (StoredValue.garbage ""))
      = Except.ok (encodeRecord defaultProgress) ∧
    (∀ s : String, s.isEmpty = false →
      ∃ e : String,
        loadProgress (some (StoredValue.garbage s)) = Except.error e) := by
  refine ⟨rfl, rfl, fun v => rfl, rfl, fun s hs => ?_⟩
  refine ⟨"SyntaxError: unexpected token in JSON: " ++ s, ?_⟩
  simp [loadProgress, StoredValue.truthy, hs, jsonParse]

/-- Witness for the amended C4 theorem: default on an empty slot and on a
stored empty string; a crash on the nonempty unparsable string "oops". -/
theorem loadProgress_default_or_parsed_witness :
    loadProgress none = Except.ok (encodeRecord defaultProgress) ∧
    loadProgress (some (StoredValue.garbage ""))
      = Except.ok (encodeRecord defaultProgress) ∧
    ∃ e : String,
      loadProgress (some (StoredValue.garbage "oops")) = Except.error e :=
  ⟨loadProgress_default_or_parsed.1,
   loadProgress_default_or_parsed.2.2.2.1,
   loadProgress_default_or_parsed.2.2.2.2 "oops" (by decide)⟩

/-- Claim C3 counterexample: navigating to the unknown section "bogus" from
the fresh state (currentSection "home") is not rejected — `currentSection`
becomes "bogus", so it does not stay "home" as the claim requires. -/
theorem navigate_unknown_changes_currentSection :
    demoState.currentSection = "home" ∧
    knownSections.contains "bogus" = false ∧
    (navigateToSection "bogus" demoState).currentSection = "bogus" ∧
    ((navigateToSection "bogus" demoState).currentSection
      == demoState.currentSection) = false := by
  exact ⟨rfl, rfl, rfl, rfl⟩

/-- Claim C3 (amended): `navigateToSection` rejects nothing: it
unconditionally overwrites `currentSection` with the given name, known or
unknown, and raises no InvalidSection signal; for an unknown name the view
switch finds no matching section element, so no section view is active
afterwards. -/
theorem navigate_unknown_overwrites (sectionName : String) (s : AppState)
    (h : sectionName ∉ knownSections) :
    (navigateToSection sectionName s).currentSection = sectionName ∧
    (navigateToSection sectionName s).activeView = none := by
  refine ⟨rfl, ?_⟩
  have hc : knownSections.contains sectionName = false := by simpa using h
  simp [navigateToSection, hc, h]

/-- Witness for the amended C3 theorem at the unknown section "bogus". -/
theorem navigate_unknown_overwrites_witness :
    (navigateToSection "bogus" demoState).currentSection = "bogus" ∧
    (navigateToSection "bogus" demoState).activeView = none :=
  navigate_unknown_overwrites "bogus" demoState (by decide)

/-- Claim C5 counterexample: opening the unknown procedure "surgery" from the
fresh state is not rejected — the modal opens (showing the cleaning data), so
`showProcedureModal` does not refuse unknown procedure ids. -/
theorem showModal_unknown_opens :
    demoState.modalShown = false ∧
    (["cleaning", "xray", "filling", "checkup"].contains "surgery") = false ∧
    (showProcedureModal "surgery" demoState).modalShown = true ∧
    (showProcedureModal "surgery" demoState).modalTitle = cleaningTitle := by
  exact ⟨rfl, rfl, rfl, rfl⟩

/-- Outside the four own keys, the table lookup misses. -/
theorem proceduresTable_lookup_none (pid : String)
    (h : pid ∉ ["cleaning", "xray", "filling", "checkup"]) :
    proceduresTable.lookup pid = none := by
  simp only [List.mem_cons, List.not_mem_nil, or_false, not_or] at h
  obtain ⟨h1, h2, h3, h4⟩ := h
  have e1 : (pid == "cleaning") = false := beq_eq_false_iff_ne.mpr h1
  have e2 : (pid == "xray") = false := beq_eq_false_iff_ne.mpr h2
  have e3 : (pid == "filling") = false := beq_eq_false_iff_ne.mpr h3
  have e4 : (pid == "checkup") = false := beq_eq_false_iff_ne.mpr h4
  simp [proceduresTable, List.lookup, e1, e2, e3, e4]

/-- Claim C5 (amended): for every procedure id outside {cleaning, xray,
filling, checkup}, `showProcedureModal` does not reject: no InvalidProcedure
signal exists and the modal opens anyway. For an id that is not an inherited
`Object.prototype` member name, the lookup falls back to the cleaning entry
and the modal shows the cleaning title and content; for an inherited member
name (toString, constructor, __proto__, ...) the bracket access yields the
truthy inherited member, the fallback is skipped, and the modal shows the
stringified undefined title and content. -/
theorem showModal_unknown_still_opens (pid : String) (s : AppState)
    (h : pid ∉ ["cleaning", "xray", "filling", "checkup"]) :
    (showProcedureModal pid s).modalShown = true ∧
    (pid ∉ objectPrototypeMembers →
      (showProcedureModal pid s).modalTitle = cleaningTitle ∧
      (showProcedureModal pid s).modalContent = cleaningContent) ∧
    (pid ∈ objectPrototypeMembers →
      (showProcedureModal pid s).modalTitle = "undefined" ∧
      (showProcedureModal pid s).modalContent = "undefined") := by
  have hl := proceduresTable_lookup_none pid h
  refine ⟨rfl, ?_, ?_⟩
  · intro hp
    have hgd : getProcedureData pid
        = ProcedureLookup.entry ⟨cleaningTitle, cleaningContent⟩ := by
      simp [getProcedureData, hl, hp]
    simp [showProcedureModal, hgd, ProcedureLookup.titleText,
      ProcedureLookup.contentHtml]
  · intro hp
    have hgd : getProcedureData pid = ProcedureLookup.inheritedMember pid := by
      simp [getProcedureData, hl, hp]
    simp [showProcedureModal, hgd, ProcedureLookup.titleText,
      ProcedureLookup.contentHtml]

/-- Witness for the amended C5 theorem: the unknown id "surgery" opens with
the cleaning data; the inherited member name "toString" opens with the
stringified undefined data. -/
theorem showModal_unknown_still_opens_witness :
    (showProcedureModal "surgery" demoState).modalShown = true ∧
    (showProcedureModal "surgery" demoState).modalTitle = cleaningTitle ∧
    (showProcedureModal "surgery" demoState).modalContent = cleaningContent ∧
    (showProcedureModal "toString" demoState).modalShown = true ∧
    (showProcedureModal "toString" demoState).modalTitle = "undefined" ∧
    (showProcedureModal "toString" demoState).modalContent = "undefined" := by
  have hs := showModal_unknown_still_opens "surgery" demoState (by decide)
  have ht := showModal_unknown_still_opens "toString" demoState (by decide)
  exact ⟨hs.1, (hs.2.1 (by decide)).1, (hs.2.1 (by decide)).2, ht.1,
    (ht.2.2 (by decide)).1, (ht.2.2 (by decide)).2⟩

/-- Claim C9 counterexample: "toString" is outside the four procedure ids,
yet the lookup does not fall back to the cleaning entry — bracket access
finds the truthy `Object.prototype.toString` member, so the modal opens with
the stringified undefined title, not the cleaning title. -/
theorem getProcedureData_toString_no_fallback :
    (["cleaning", "xray", "filling", "checkup"].contains "toString")
      = false ∧
    getProcedureData "toString"
      = ProcedureLookup.inheritedMember "toString" ∧
    decide (getProcedureData "toString"
      = ProcedureLookup.entry ⟨cleaningTitle, cleaningContent⟩) = false ∧
    (showProcedureModal "toString" demoState).modalShown = true ∧
    ((showProcedureModal "toString" demoState).modalTitle == cleaningTitle)
      = false ∧
    (showProcedureModal "toString" demoState).modalTitle = "undefined" := by
  exact ⟨rfl, rfl, by decide, rfl, by decide, rfl⟩

/-- Claim C9 (amended): for every procedure id outside {cleaning, xray,
filling, checkup} that is not an inherited `Object.prototype` member name,
the modal request does not fail or stay closed — `getProcedureData` falls
back to the cleaning entry and the modal opens displaying the cleaning
procedure's title and content. (For inherited member names such as
"toString" the modal still opens, but with the inherited member's
stringified undefined title and content instead of cleaning's.) -/
theorem getProcedureData_unknown_falls_back (pid : String) (s : AppState)
    (h : pid ∉ ["cleaning", "xray", "filling", "checkup"])
    (hp : pid ∉ objectPrototypeMembers) :
    getProcedureData pid = getProcedureData "cleaning" ∧
    getProcedureData pid
      = ProcedureLookup.entry ⟨cleaningTitle, cleaningContent⟩ ∧
    (showProcedureModal pid s).modalShown = true ∧
    (showProcedureModal pid s).modalTitle = cleaningTitle ∧
    (showProcedureModal pid s).modalContent = cleaningContent := by
  have hl := proceduresTable_lookup_none pid h
  have hgd : getProcedureData pid
      = ProcedureLookup.entry ⟨cleaningTitle, cleaningContent⟩ := by
    simp [getProcedureData, hl, hp]
  refine ⟨?_, hgd, rfl, ?_, ?_⟩
  · rw [hgd]
    rfl
  · simp [showProcedureModal, hgd, ProcedureLookup.titleText]
  · simp [showProcedureModal, hgd, ProcedureLookup.contentHtml]

/-- Witness for the amended C9 theorem at the unknown id "braces". -/
theorem getProcedureData_unknown_falls_back_witness :
    getProcedureData "braces" = getProcedureData "cleaning" ∧
    getProcedureData "braces"
      = ProcedureLookup.entry ⟨cleaningTitle, cleaningContent⟩ ∧
    (showProcedureModal "braces" demoState).modalShown = true ∧
    (showProcedureModal "braces" demoState).modalTitle = cleaningTitle ∧
    (showProcedureModal "braces" demoState).modalContent = cleaningContent :=
  getProcedureData_unknown_falls_back "braces" demoState (by decide)
    (by decide)

/-- Decoding a list of encoded strings recovers the list. -/
theorem decodeEach_str (l : List String) :
    decodeEach decodeStr (l.map Json.str) = some l := by
  induction l with
  | nil => rfl
  | cons a t ih => simp [decodeEach, decodeStr, ih]

/-- Decoding an encoded badge recovers the badge. -/
theorem decodeBadge_encodeBadge (b : Badge) :
    decodeBadge (encodeBadge b) = some b := by
  cases b
  rfl

/-- Decoding a list of encoded badges recovers the list. -/
theorem decodeEach_badge (l : List Badge) :
    decodeEach decodeBadge (l.map encodeBadge) = some l := by
  induction l with
  | nil => rfl
  | cons a t ih => simp [decodeEach, decodeBadge_encodeBadge, ih]

/-- Decoding the JSON number of a natural recovers the natural. -/
theorem decodeNat_natCast (n : Nat) :
    decodeNat (Json.num (n : ℚ)) = some n := by
  simp [decodeNat, Rat.den_natCast, Rat.num_natCast, Int.toNat_natCast]

/-- `decodeRecord` is a left inverse of `encodeRecord`: the JSON encoding is
    deep-equality-faithful. -/
theorem decodeRecord_encodeRecord (r : ProgressRecord) :
    decodeRecord (encodeRecord r) = some r := by
  cases r with
  | mk cps bdgs se vc =>
    simp [encodeRecord, decodeRecord, decodeEach_str, decodeEach_badge,
      decodeNat_natCast]

/-- Claim C6: saving and then loading round-trips. `saveProgress` replaces
the storage slot wholesale with the serialized record (whatever the slot held
before); for the record it persists — `userProgress` with `soundEnabled`
synced, i.e. exactly `r` when the two agree — `loadProgress` returns a value
deep-equal to it, as `decodeRecord ∘ encodeRecord = some` certifies. -/
theorem saveProgress_loadProgress_roundtrip (r : ProgressRecord) (s : AppState)
    (hup : s.userProgress = r) (hse : s.soundEnabled = r.soundEnabled) :
    (saveProgress s).storage = some (StoredValue.jsonDoc (encodeRecord r)) ∧
    loadProgress (saveProgress s).storage = Except.ok (encodeRecord r) ∧
    decodeRecord (encodeRecord r) = some r := by
  subst hup
  refine ⟨?_, ?_, decodeRecord_encodeRecord _⟩
  · simp [saveProgress, hse]
  · simp [saveProgress, loadProgress, hse, jsonParse, StoredValue.truthy]

/-- Witness for the C6 round-trip theorem on a concrete record. -/
theorem saveProgress_loadProgress_roundtrip_witness :
    (saveProgress demoState).storage
      = some (StoredValue.jsonDoc (encodeRecord defaultProgress)) ∧
    loadProgress (saveProgress demoState).storage
      = Except.ok (encodeRecord defaultProgress) ∧
    decodeRecord (encodeRecord defaultProgress) = some defaultProgress :=
  saveProgress_loadProgress_roundtrip defaultProgress demoState rfl rfl

/-- Claim C8: toggling sound twice returns `soundEnabled` to its original
value, and each toggle persists the resulting value — the record written by a
single toggle carries the flipped flag and survives a reload, and the record
written by the second toggle carries the original flag again. -/
theorem toggleSound_involution_persists (s : AppState) :
    (toggleSound (toggleSound s)).soundEnabled = s.soundEnabled ∧
    (toggleSound s).storage = some (StoredValue.jsonDoc (encodeRecord
      { s.userProgress with soundEnabled := !s.soundEnabled })) ∧
    loadProgress (toggleSound s).storage = Except.ok (encodeRecord
      { s.userProgress with soundEnabled := !s.soundEnabled }) ∧
    decodeRecord (encodeRecord
        { s.userProgress with soundEnabled := !s.soundEnabled })
      = some { s.userProgress with soundEnabled := !s.soundEnabled } ∧
    (toggleSound (toggleSound s)).storage
      = some (StoredValue.jsonDoc (encodeRecord
          { s.userProgress with soundEnabled := s.soundEnabled })) := by
  refine ⟨?_, ?_, ?_, decodeRecord_encodeRecord _, ?_⟩
  · simp [toggleSound, saveProgress, Bool.not_not]
  · simp [toggleSound, saveProgress]
  · simp [toggleSound, saveProgress, loadProgress, jsonParse,
      StoredValue.truthy]
  · simp [toggleSound, saveProgress, Bool.not_not]

/-- A duplicate id makes `awardBadge` a no-op on the whole state. -/
theorem awardBadge_noop_of_found (badgeId n i t : String) (s : AppState)
    (h : (s.userProgress.badges.find? (fun b => b.id == badgeId)).isSome) :
    awardBadge badgeId n i t s = s := by
  unfold awardBadge
  rw [if_pos h]

/-- Claim C2: awarding a badge id that is already present is a no-op on the
whole state (no mutation, no save, no notification); awarding the same id
twice equals awarding it once; and under the no-duplicate-id invariant the
invariant is preserved and exactly one badge with the awarded id remains. -/
theorem awardBadge_idempotent (s : AppState)
    (badgeId n1 i1 t1 n2 i2 t2 : String) :
    ((∃ b ∈ s.userProgress.badges, b.id = badgeId) →
      awardBadge badgeId n1 i1 t1 s = s) ∧
    awardBadge badgeId n2 i2 t2 (awardBadge badgeId n1 i1 t1 s)
      = awardBadge badgeId n1 i1 t1 s ∧
    ((s.userProgress.badges.map Badge.id).Nodup →
      ((awardBadge badgeId n1 i1 t1 s).userProgress.badges.map Badge.id).Nodup ∧
      badgeCount badgeId (awardBadge badgeId n1 i1 t1 s).userProgress.badges
        = 1) := by
  by_cases hf : (s.userProgress.badges.find? (fun b => b.id == badgeId)).isSome
  · have hstop : awardBadge badgeId n1 i1 t1 s = s :=
      awardBadge_noop_of_found badgeId n1 i1 t1 s hf
    refine ⟨fun _ => hstop, ?_, ?_⟩
    · rw [hstop]
      exact awardBadge_noop_of_found badgeId n2 i2 t2 s hf
    · intro hnd
      rw [hstop]
      refine ⟨hnd, ?_⟩
      have hpos := (find_badge_isSome_iff badgeId s.userProgress.badges).mp hf
      have hle : (s.userProgress.badges.map Badge.id).count badgeId ≤ 1 :=
        (List.nodup_iff_count_le_one.mp hnd) badgeId
      rw [badgeCount_eq_count] at hpos ⊢
      omega
  · have hnotmem : badgeId ∉ s.userProgress.badges.map Badge.id := by
      intro hmem
      rcases List.mem_map.mp hmem with ⟨b, hb, hid⟩
      exact hf (List.find?_isSome.mpr ⟨b, hb, by simp [hid]⟩)
    have happ : (awardBadge badgeId n1 i1 t1 s).userProgress.badges
        = s.userProgress.badges ++ [⟨badgeId, n1, i1, t1⟩] := by
      rw [awardBadge_badges, if_neg hf]
    refine ⟨?_, ?_, ?_⟩
    · rintro ⟨b, hb, hid⟩
      exact absurd (List.mem_map.mpr ⟨b, hb, hid⟩) hnotmem
    · have hf2 : ((awardBadge badgeId n1 i1 t1 s).userProgress.badges.find?
          (fun b => b.id == badgeId)).isSome := by
        rw [happ]
        exact List.find?_isSome.mpr
          ⟨⟨badgeId, n1, i1, t1⟩, by simp, by simp⟩
      exact awardBadge_noop_of_found badgeId n2 i2 t2 _ hf2
    · intro hnd
      constructor
      · rw [happ]
        simp [List.nodup_append, hnd, hnotmem]
      · rw [happ, badgeCount_append_self]
        have h0 : badgeCount badgeId s.userProgress.badges = 0 := by
          by_contra hne
          exact hf ((find_badge_isSome_iff badgeId s.userProgress.badges).mpr
            (Nat.pos_of_ne_zero hne))
        rw [h0]

/-- Witness for the C2 theorem: a state holding the badge "brave" with no
duplicate ids; re-awarding "brave" changes nothing and the count stays one. -/
theorem awardBadge_idempotent_witness :
    awardBadge "brave" "n1" "i1" "t1" demoBadgeState = demoBadgeState ∧
    awardBadge "brave" "n2" "i2" "t2"
        (awardBadge "brave" "n1" "i1" "t1" demoBadgeState)
      = awardBadge "brave" "n1" "i1" "t1" demoBadgeState ∧
    ((awardBadge "brave" "n1" "i1" "t1"
        demoBadgeState).userProgress.badges.map Badge.id).Nodup ∧
    badgeCount "brave"
      (awardBadge "brave" "n1" "i1" "t1" demoBadgeState).userProgress.badges
      = 1 := by
  have h := awardBadge_idempotent demoBadgeState "brave" "n1" "i1" "t1"
    "n2" "i2" "t2"
  have hnd : (demoBadgeState.userProgress.badges.map Badge.id).Nodup := by
    decide
  exact ⟨h.1 ⟨⟨"brave", "Brave Kid", "🏆", "2024-01-01T00:00:00.000Z"⟩,
    by decide, rfl⟩, h.2.1, (h.2.2 hnd).1, (h.2.2 hnd).2⟩

/-- `awardBadge` never touches the modal visibility. -/
theorem awardBadge_modalShown (badgeId n i t : String) (s : AppState) :
    (awardBadge badgeId n i t s).modalShown = s.modalShown := by
  unfold awardBadge saveProgress
  split <;> rfl

/-- Claim C10: every core operation preserves `completedProcedures` and
`visitCount` — no code path appends a completed procedure or increments the
visit count — and the badges list is only ever left alone or extended by a
single appended badge (by `awardBadge`). -/
theorem ops_preserve_completed_and_visitCount (op : Op) (s : AppState) :
    (applyOp op s).userProgress.completedProcedures
      = s.userProgress.completedProcedures ∧
    (applyOp op s).userProgress.visitCount = s.userProgress.visitCount ∧
    ((applyOp op s).userProgress.badges = s.userProgress.badges ∨
      ∃ b : Badge,
        (applyOp op s).userProgress.badges = s.userProgress.badges ++ [b]) := by
  cases op with
  | navigate name =>
      exact ⟨rfl, rfl, Or.inl rfl⟩
  | openModal pid =>
      exact ⟨rfl, rfl, Or.inl rfl⟩
  | stepRender pid step =>
      exact ⟨rfl, rfl, Or.inl rfl⟩
  | close =>
      exact ⟨rfl, rfl, Or.inl rfl⟩
  | award i n c t =>
      refine ⟨?_, ?_, ?_⟩
      · show (awardBadge i n c t s).userProgress.completedProcedures = _
        unfold awardBadge saveProgress
        split <;> rfl
      · show (awardBadge i n c t s).userProgress.visitCount = _
        unfold awardBadge saveProgress
        split <;> rfl
      · rw [show applyOp (Op.award i n c t) s = awardBadge i n c t s from rfl,
          awardBadge_badges]
        split
        · exact Or.inl rfl
        · exact Or.inr ⟨⟨i, n, c, t⟩, rfl⟩
  | toggle =>
      exact ⟨rfl, rfl, Or.inl rfl⟩
  | save =>
      exact ⟨rfl, rfl, Or.inl rfl⟩

/-- Claim C1: from Closed, openProcedure("cleaning") yields
Open(cleaning, show); each advanceStep moves show → tell → do; advancing past
do closes the modal (in the step register and on screen) and is the only
point where badges change — the two inner advances leave the badge list
untouched — after which exactly one "completed cleaning" badge is present. -/
theorem modalFlow_cleaning_show_tell_do (a : AppState) (now : String)
    (h : badgeCount "completed cleaning" a.userProgress.badges ≤ 1) :
    (openProcedure "cleaning" ⟨ModalFsm.closed, a⟩).fsm
      = ModalFsm.opened "cleaning" Step.stepShow ∧
    (advanceStep now (openProcedure "cleaning" ⟨ModalFsm.closed, a⟩)).fsm
      = ModalFsm.opened "cleaning" Step.stepTell ∧
    (advanceStep now (advanceStep now
        (openProcedure "cleaning" ⟨ModalFsm.closed, a⟩))).fsm
      = ModalFsm.opened "cleaning" Step.stepDo ∧
    (advanceStep now (advanceStep now (advanceStep now
        (openProcedure "cleaning" ⟨ModalFsm.closed, a⟩)))).fsm
      = ModalFsm.closed ∧
    (advanceStep now (advanceStep now (advanceStep now
        (openProcedure "cleaning" ⟨ModalFsm.closed, a⟩)))).app.modalShown
      = false ∧
    (advanceStep now (advanceStep now
        (openProcedure "cleaning" ⟨ModalFsm.closed, a⟩))).app.userProgress.badges
      = a.userProgress.badges ∧
    badgeCount "completed cleaning"
      (advanceStep now (advanceStep now (advanceStep now
        (openProcedure "cleaning" ⟨ModalFsm.closed, a⟩)))).app.userProgress.badges
      = 1 := by
  refine ⟨rfl, rfl, rfl, rfl, ?_, rfl, ?_⟩
  · show (awardBadge "completed cleaning" "completed cleaning" "🏆" now
        (closeModal (nextProcedureStep "cleaning" "do" (nextProcedureStep
          "cleaning" "tell" (showProcedureModal "cleaning" a))))).modalShown
      = false
    rw [awardBadge_modalShown]
    rfl
  · show badgeCount "completed cleaning"
        (awardBadge "completed cleaning" "completed cleaning" "🏆" now
          (closeModal (nextProcedureStep "cleaning" "do" (nextProcedureStep
            "cleaning" "tell"
              (showProcedureModal "cleaning" a))))).userProgress.badges = 1
    exact badgeCount_awardBadge "completed cleaning" "completed cleaning"
      "🏆" now _ h

/-- Witness for the C1 theorem from the fresh state (no badges yet). -/
theorem modalFlow_cleaning_show_tell_do_witness :
    (openProcedure "cleaning" ⟨ModalFsm.closed, demoState⟩).fsm
      = ModalFsm.opened "cleaning" Step.stepShow ∧
    (advanceStep "t0" (openProcedure "cleaning" ⟨ModalFsm.closed, demoState⟩)).fsm
      = ModalFsm.opened "cleaning" Step.stepTell ∧
    (advanceStep "t0" (advanceStep "t0"
        (openProcedure "cleaning" ⟨ModalFsm.closed, demoState⟩))).fsm
      = ModalFsm.opened "cleaning" Step.stepDo ∧
    (advanceStep "t0" (advanceStep "t0" (advanceStep "t0"
        (openProcedure "cleaning" ⟨ModalFsm.closed, demoState⟩)))).fsm
      = ModalFsm.closed ∧
    (advanceStep "t0" (advanceStep "t0" (advanceStep "t0"
        (openProcedure "cleaning" ⟨ModalFsm.closed, demoState⟩)))).app.modalShown
      = false ∧
    (advanceStep "t0" (advanceStep "t0"
        (openProcedure "cleaning"
          ⟨ModalFsm.closed, demoState⟩))).app.userProgress.badges
      = demoState.userProgress.badges ∧
    badgeCount "completed cleaning"
      (advanceStep "t0" (advanceStep "t0" (advanceStep "t0"
        (openProcedure "cleaning"
          ⟨ModalFsm.closed, demoState⟩)))).app.userProgress.badges
      = 1 :=
  modalFlow_cleaning_show_tell_do demoState "t0" (by decide)
